import Mathlib

/-!
Verification of the bridgelet-core ephemeral account state machine.

The repository ships the contract's test suite
(`contracts/ephemeral_account/src/test.rs`) and the sweep controller's error
enum (`contracts/sweep_controller/src/errors.rs`); the body of the
`EphemeralAccountContract` itself is not present, so the operations below are
modelled from the specification, constrained by the behavior the test suite
pins down.  In particular `test_sweep_single_asset` and
`test_sweep_multiple_assets` call `sweep` with an all-zero 64-byte
authorization token and assert that the sweep succeeds, so the modelled sweep
does not inspect the token.

The host environment rolls back every storage mutation of a contract call
that returns an error, so each operation is embedded as a function
`Option Account → Except Error ...` and `applyOp` keeps the pre-call state
whenever the operation fails.
-/

namespace Bridgelet

/-- Account lifecycle status, as used by the tests: `Active`,
`PaymentReceived`, `Swept`, `Expired`. -/
inductive AccountStatus where
  | Active
  | PaymentReceived
  | Swept
  | Expired
deriving DecidableEq

/-- Error taxonomy.  `InvalidAccount` through `AccountAlreadySwept` are
declared in `contracts/sweep_controller/src/errors.rs`; `AlreadyInitialized`,
`DuplicateAsset` and `TooManyPayments` are the ephemeral account contract's
own errors (the tests expect contract error codes #13 and #14 for the last
two). -/
inductive Error where
  | InvalidAccount
  | TransferFailed
  | AuthorizationFailed
  | InsufficientBalance
  | AccountNotReady
  | AccountExpired
  | AccountAlreadySwept
  | AlreadyInitialized
  | DuplicateAsset
  | TooManyPayments
deriving DecidableEq

/-- One recorded payment: an asset identity (opaque, modelled as `Nat`) and a
signed 128-bit amount (only stored, never computed with, so `Int` is exact). -/
structure PaymentRecord where
  asset : Nat
  amount : Int
deriving DecidableEq

/-- Modelled from the spec: the persisted `EphemeralAccount` record (§3 of
the spec); the contract source holding this struct is not in the repository.
Identities (addresses) are opaque `Nat`s, `expiry_ledger` is a ledger
sequence number. -/
structure Account where
  creator : Nat
  recovery : Nat
  expiry_ledger : Nat
  status : AccountStatus
  payments : List PaymentRecord
deriving DecidableEq

/-- Lifecycle events observable by external listeners: a first-payment event,
a multi-payment event, a swept event and an expired event. -/
inductive Event where
  | firstPayment (asset : Nat) (amount : Int)
  | multiPayment (asset : Nat) (amount : Int)
  | sweptEvent (dest : Nat)
  | expiredEvent
deriving DecidableEq

/-- Modelled from the spec: capacity bound of the Payment Ledger. -/
def maxPayments : Nat := 10

/-- Modelled from the spec: the Payment Ledger's `insert` (§4.1) — fails with
`DuplicateAsset` if the asset is already present, with `TooManyPayments` if
10 records are already held, otherwise appends; the ledger source is not in
the repository. -/
def ledgerInsert (l : List PaymentRecord) (asset : Nat) (amount : Int) :
    Except Error (List PaymentRecord) :=
  if l.any (fun p => p.asset == asset) then
    .error .DuplicateAsset
  else if maxPayments ≤ l.length then
    .error .TooManyPayments
  else
    .ok (l ++ [{ asset := asset, amount := amount }])

/-- Modelled from the spec: `initialize(creator, expiry_ledger, recovery)`
(§4.2) — fails with `AlreadyInitialized` when account storage is already
present, otherwise creates the account with `status = Active` and an empty
Payment Ledger; the contract source is not in the repository. -/
def initAccount (creator expiry_ledger recovery : Nat) :
    Option Account → Except Error Account
  | some _ => .error .AlreadyInitialized
  | none =>
    .ok { creator := creator, recovery := recovery,
          expiry_ledger := expiry_ledger, status := .Active, payments := [] }

/-- Modelled from the spec: `record_payment(amount, asset)` (§4.2) — requires
an initialized, non-terminal account, delegates to the ledger insert, sets
`status = PaymentReceived` and emits a first-payment event on the first
successful insertion and a multi-payment event on every later one; the
contract source is not in the repository. -/
def record_payment (amount : Int) (asset : Nat) :
    Option Account → Except Error (Account × Event)
  | none => .error .AccountNotReady
  | some a =>
    if a.status = .Swept ∨ a.status = .Expired then
      .error .AccountNotReady
    else
      match ledgerInsert a.payments asset amount with
      | .error e => .error e
      | .ok ps =>
        .ok ({ a with status := .PaymentReceived, payments := ps },
             if a.payments.isEmpty then .firstPayment asset amount
             else .multiPayment asset amount)

/-- Modelled from the spec: `is_expired()` (§4.2) — on an initialized account
it returns `true` iff the current ledger sequence number strictly exceeds
`expiry_ledger`; on an account that was never initialized the storage read
fails, so the call fails rather than reporting `false`; the contract source
is not in the repository. -/
def is_expired (current : Nat) : Option Account → Except Error Bool
  | none => .error .AccountNotReady
  | some a => .ok (decide (a.expiry_ledger < current))

/-- Outcome of one Asset Transfer Service call (§6 of the spec): success, or
one of the two failures the core propagates verbatim. -/
inductive TransferResult where
  | success
  | transferFailed
  | insufficientBalance
deriving DecidableEq

/-- The injected Asset Transfer Service: maps `(asset, to, amount)` to an
outcome. -/
def TransferSvc : Type := Nat → Nat → Int → TransferResult

/-- Modelled from the spec: the transfer loop of `sweep` — requests one
transfer per payment record, in ledger order, to `dest`, and propagates
`TransferFailed` / `InsufficientBalance`; returns the list of
`(asset, destination, amount)` triples requested. -/
def doTransfers (ts : TransferSvc) (dest : Nat) :
    List PaymentRecord → Except Error (List (Nat × Nat × Int))
  | [] => .ok []
  | p :: rest =>
    match ts p.asset dest p.amount with
    | .transferFailed => .error .TransferFailed
    | .insufficientBalance => .error .InsufficientBalance
    | .success =>
      match doTransfers ts dest rest with
      | .error e => .error e
      | .ok l => .ok ((p.asset, dest, p.amount) :: l)

/-- Modelled from the spec: `sweep(destination, authorization)` (§4.2) —
requires an initialized account, fails `AccountAlreadySwept` / `AccountExpired`
on terminal accounts, `AccountExpired` when past expiry (expiry takes
precedence over sweep), `AccountNotReady` unless `status = PaymentReceived`,
then transfers every recorded payment and sets `status = Swept`; the contract
source is not in the repository.  The 64-byte `auth` token is accepted
without inspection: `test_sweep_single_asset` and `test_sweep_multiple_assets`
pass an all-zero token and assert the sweep succeeds, so the implemented
authorization gate does not depend on the token value. -/
def sweep (current dest : Nat) (auth : List Nat) (ts : TransferSvc) :
    Option Account → Except Error (Account × List (Nat × Nat × Int))
  | none => .error .AccountNotReady
  | some a =>
    if a.status = .Swept then .error .AccountAlreadySwept
    else if a.status = .Expired then .error .AccountExpired
    else if a.expiry_ledger < current then .error .AccountExpired
    else if a.status = .PaymentReceived then
      match doTransfers ts dest a.payments with
      | .error e => .error e
      | .ok trs => .ok ({ a with status := .Swept }, trs)
    else .error .AccountNotReady

/-- Modelled from the spec: `expire()` (§4.2) — requires an initialized,
non-terminal account and `is_expired() = true`, then sets
`status = Expired`; fails when called before the expiry threshold has passed
and fails when the account is already terminal; the contract source is not in
the repository. -/
def expire (current : Nat) : Option Account → Except Error Account
  | none => .error .AccountNotReady
  | some a =>
    if a.status = .Swept then .error .AccountAlreadySwept
    else if a.status = .Expired then .error .AccountExpired
    else if a.expiry_ledger < current then .ok { a with status := .Expired }
    else .error .AccountNotReady

/-- One externally issued call against an account: the mutating operations of
the contract's public interface.  A sweep carries the ledger time, the
destination, the raw token and the ambient transfer service. -/
inductive Op where
  | init (creator expiry_ledger recovery : Nat)
  | record (amount : Int) (asset : Nat)
  | sweepOp (current dest : Nat) (auth : List Nat) (ts : TransferSvc)
  | expireOp (current : Nat)

/-- Apply one operation to the stored account state: on success the mutated
state is committed, on failure the host rolls back and the state is kept. -/
def applyOp : Op → Option Account → Option Account
  | .init c e r, st =>
    match initAccount c e r st with
    | .ok a => some a
    | .error _ => st
  | .record amt asset, st =>
    match record_payment amt asset st with
    | .ok (a, _) => some a
    | .error _ => st
  | .sweepOp cur dest auth ts, st =>
    match sweep cur dest auth ts st with
    | .ok (a, _) => some a
    | .error _ => st
  | .expireOp cur, st =>
    match expire cur st with
    | .ok a => some a
    | .error _ => st

/-- Run a sequence of operations from a starting state. -/
def run (ops : List Op) (st : Option Account) : Option Account :=
  ops.foldl (fun s op => applyOp op s) st

/-- Number of stored payment records (0 for an uninitialized account). -/
def paymentCount : Option Account → Nat
  | none => 0
  | some a => a.payments.length

/-- The stored payment records (empty for an uninitialized account). -/
def paymentsOf : Option Account → List PaymentRecord
  | none => []
  | some a => a.payments

/-- No two stored records share an asset. -/
def assetsNodup (st : Option Account) : Prop :=
  (paymentsOf st).map PaymentRecord.asset |>.Nodup

/-- Rank of a status along the lifecycle graph: uninitialized < Active <
PaymentReceived < terminal. -/
def statusRank : Option Account → Nat
  | none => 0
  | some a =>
    match a.status with
    | .Active => 1
    | .PaymentReceived => 2
    | .Swept => 3
    | .Expired => 3

/-- An account in a terminal status (`Swept` or `Expired`). -/
def isTerminal : Option Account → Bool
  | none => false
  | some a => a.status = .Swept || a.status = .Expired

/-- The all-zero 64-byte authorization token used by the test suite. -/
def zeroToken : List Nat := List.replicate 64 0

/-- A transfer service on which every transfer succeeds. -/
def tsAllOk : TransferSvc := fun _ _ _ => .success

/-! ### Characterization lemmas -/

/-- A successful ledger insert means the asset was fresh, the ledger was not
full, and the record was appended. -/
theorem ledgerInsert_ok_elim {l : List PaymentRecord} {asset : Nat}
    {amount : Int} {ps : List PaymentRecord}
    (h : ledgerInsert l asset amount = .ok ps) :
    (∀ p ∈ l, p.asset ≠ asset) ∧ l.length < maxPayments ∧
      ps = l ++ [{ asset := asset, amount := amount }] := by
  unfold ledgerInsert at h
  split at h
  · simp at h
  · split at h
    · simp at h
    · rename_i hdup hlen
      refine ⟨?_, by omega, by injection h with h2; exact h2.symm⟩
      intro p hp hpe
      exact hdup (List.any_eq_true.mpr ⟨p, hp, by simp [hpe]⟩)

/-- A ledger insert of an asset already on record fails with
`DuplicateAsset`, whatever the amount. -/
theorem ledgerInsert_dup {l : List PaymentRecord} {asset : Nat}
    (amount : Int) (hdup : ∃ p ∈ l, p.asset = asset) :
    ledgerInsert l asset amount = .error .DuplicateAsset := by
  unfold ledgerInsert
  obtain ⟨p, hp, hpe⟩ := hdup
  rw [if_pos (List.any_eq_true.mpr ⟨p, hp, by simp [hpe]⟩)]

/-- A ledger insert of a fresh asset into a full ledger fails with
`TooManyPayments`. -/
theorem ledgerInsert_full {l : List PaymentRecord} {asset : Nat}
    (amount : Int) (hfresh : ∀ p ∈ l, p.asset ≠ asset)
    (hlen : maxPayments ≤ l.length) :
    ledgerInsert l asset amount = .error .TooManyPayments := by
  unfold ledgerInsert
  rw [if_neg, if_pos hlen]
  intro hany
  obtain ⟨p, hp, hpe⟩ := List.any_eq_true.mp hany
  exact hfresh p hp (by simpa using hpe)

/-- A successful `record_payment` means the account existed in a non-terminal
status, the asset was fresh, the ledger had room, the record was appended,
the status became `PaymentReceived`, and the emitted event is the
first-payment event exactly when the ledger was empty before the call. -/
theorem record_ok_elim {amount : Int} {asset : Nat} {st : Option Account}
    {a2 : Account} {ev : Event}
    (h : record_payment amount asset st = .ok (a2, ev)) :
    ∃ a, st = some a ∧ a.status ≠ .Swept ∧ a.status ≠ .Expired ∧
      (∀ p ∈ a.payments, p.asset ≠ asset) ∧ a.payments.length < maxPayments ∧
      a2 = { a with status := .PaymentReceived,
                    payments := a.payments ++
                      [{ asset := asset, amount := amount }] } ∧
      ev = (if a.payments.isEmpty then Event.firstPayment asset amount
            else Event.multiPayment asset amount) := by
  cases st with
  | none => simp [record_payment] at h
  | some a =>
    simp only [record_payment] at h
    split at h
    · simp at h
    · rename_i hterm
      push_neg at hterm
      split at h
      · simp at h
      · rename_i ps hins
        obtain ⟨hfresh, hlen, hps⟩ := ledgerInsert_ok_elim hins
        refine ⟨a, rfl, hterm.1, hterm.2, hfresh, hlen, ?_, ?_⟩
        · injection h with h2
          rw [Prod.mk.injEq] at h2
          rw [← h2.1, hps]
        · injection h with h2
          rw [Prod.mk.injEq] at h2
          exact h2.2.symm

/-- A successful `expire` means the account existed, was non-terminal, the
current ledger sequence was past the expiry threshold, and the only change is
`status := Expired`. -/
theorem expire_ok_elim {current : Nat} {st : Option Account} {a2 : Account}
    (h : expire current st = .ok a2) :
    ∃ a, st = some a ∧ a.status ≠ .Swept ∧ a.status ≠ .Expired ∧
      a.expiry_ledger < current ∧ a2 = { a with status := .Expired } := by
  cases st with
  | none => simp [expire] at h
  | some a =>
    simp only [expire] at h
    split at h
    · simp at h
    · split at h
      · simp at h
      · split at h
        · rename_i hsw hex hlt
          exact ⟨a, rfl, hsw, hex, hlt, by injection h with h2; exact h2.symm⟩
        · simp at h

/-- A successful transfer loop requests exactly one transfer per payment
record, in order, each to the destination with the recorded amount. -/
theorem doTransfers_ok {ts : TransferSvc} {dest : Nat} :
    ∀ {l : List PaymentRecord} {trs : List (Nat × Nat × Int)},
      doTransfers ts dest l = .ok trs →
      trs = l.map (fun p => (p.asset, dest, p.amount)) := by
  intro l
  induction l with
  | nil => intro trs h; simp [doTransfers] at h; simp [← h]
  | cons p rest ih =>
    intro trs h
    unfold doTransfers at h
    split at h
    · simp at h
    · simp at h
    · split at h
      · simp at h
      · rename_i l2 hrest
        injection h with h2
        rw [← h2, ih hrest]
        simp

/-- The transfer loop never reports an authorization failure. -/
theorem doTransfers_no_authfail (ts : TransferSvc) (dest : Nat)
    (l : List PaymentRecord) :
    doTransfers ts dest l ≠ .error .AuthorizationFailed := by
  induction l with
  | nil => simp [doTransfers]
  | cons p rest ih =>
    unfold doTransfers
    cases ts p.asset dest p.amount
    · cases hr : doTransfers ts dest rest with
      | error e =>
        rw [hr] at ih
        simpa using ih
      | ok l2 => simp
    · simp
    · simp

/-- A successful `sweep` means the account existed in status
`PaymentReceived`, was not past expiry, every recorded payment was requested
as a transfer to the destination, and the only change is
`status := Swept`. -/
theorem sweep_ok_elim {current dest : Nat} {auth : List Nat}
    {ts : TransferSvc} {st : Option Account} {a2 : Account}
    {trs : List (Nat × Nat × Int)}
    (h : sweep current dest auth ts st = .ok (a2, trs)) :
    ∃ a, st = some a ∧ a.status = .PaymentReceived ∧
      current ≤ a.expiry_ledger ∧ a2 = { a with status := .Swept } ∧
      trs = a.payments.map (fun p => (p.asset, dest, p.amount)) := by
  cases st with
  | none => simp [sweep] at h
  | some a =>
    simp only [sweep] at h
    split at h
    · simp at h
    · split at h
      · simp at h
      · split at h
        · simp at h
        · split at h
          · rename_i hexp hpr
            split at h
            · simp at h
            · rename_i l2 htr
              injection h with h2
              rw [Prod.mk.injEq] at h2
              exact ⟨a, rfl, hpr, by omega, h2.1.symm,
                h2.2 ▸ doTransfers_ok htr⟩
          · simp at h

/-! ### Reachable-state invariant -/

/-- The data invariant of §3 of the spec: the ledger is bounded by 10, no
two records share an asset, an `Active` account has an empty ledger and a
`PaymentReceived` account has a nonempty one. -/
def Inv : Option Account → Prop
  | none => True
  | some a =>
    a.payments.length ≤ maxPayments ∧
    (a.payments.map PaymentRecord.asset).Nodup ∧
    (a.status = .Active → a.payments = []) ∧
    (a.status = .PaymentReceived → a.payments ≠ [])

/-- Every operation preserves the data invariant. -/
theorem inv_step (op : Op) (st : Option Account) (hInv : Inv st) :
    Inv (applyOp op st) := by
  cases op with
  | init c e r =>
    cases st with
    | none => simp [applyOp, initAccount, Inv, maxPayments]
    | some a => simpa [applyOp, initAccount] using hInv
  | record amt asset =>
    cases h : record_payment amt asset st with
    | error e => simpa [applyOp, h] using hInv
    | ok pr =>
      obtain ⟨a2, ev⟩ := pr
      obtain ⟨a, hst, _, _, hfresh, hlen, ha2, _⟩ := record_ok_elim h
      subst hst
      simp only [applyOp, h]
      subst ha2
      obtain ⟨_, hnd, _, _⟩ := hInv
      have hnotmem : asset ∉ a.payments.map PaymentRecord.asset := by
        intro hmem
        obtain ⟨p, hp, hpe⟩ := List.mem_map.mp hmem
        exact hfresh p hp hpe
      refine ⟨by simpa using hlen, ?_, by simp, by simp⟩
      simp only [List.map_append, List.map_cons, List.map_nil]
      exact hnd.append (List.nodup_singleton _)
        (List.disjoint_singleton.mpr hnotmem)
  | sweepOp cur dest auth ts =>
    cases h : sweep cur dest auth ts st with
    | error e => simpa [applyOp, h] using hInv
    | ok pr =>
      obtain ⟨a2, trs⟩ := pr
      obtain ⟨a, hst, _, _, ha2, _⟩ := sweep_ok_elim h
      subst hst
      simp only [applyOp, h]
      subst ha2
      obtain ⟨h1, h2, _, _⟩ := hInv
      exact ⟨h1, h2, by simp, by simp⟩
  | expireOp cur =>
    cases h : expire cur st with
    | error e => simpa [applyOp, h] using hInv
    | ok a2 =>
      obtain ⟨a, hst, _, _, _, ha2⟩ := expire_ok_elim h
      subst hst
      simp only [applyOp, h]
      subst ha2
      obtain ⟨h1, h2, _, _⟩ := hInv
      exact ⟨h1, h2, by simp, by simp⟩

/-- Running any sequence of operations preserves the data invariant. -/
theorem inv_run (ops : List Op) (st : Option Account) (hInv : Inv st) :
    Inv (run ops st) := by
  induction ops generalizing st with
  | nil => exact hInv
  | cons op rest ih => exact ih _ (inv_step op st hInv)

/-- Every state reachable from an uninitialized account satisfies the data
invariant. -/
theorem inv_reachable (ops : List Op) : Inv (run ops none) :=
  inv_run ops none trivial

/-- No operation ever decreases the status rank. -/
theorem statusRank_le_applyOp (op : Op) (st : Option Account) :
    statusRank st ≤ statusRank (applyOp op st) := by
  cases op with
  | init c e r =>
    cases st with
    | none => simp [applyOp, initAccount, statusRank]
    | some a => simp [applyOp, initAccount]
  | record amt asset =>
    cases h : record_payment amt asset st with
    | error e => simp [applyOp, h]
    | ok pr =>
      obtain ⟨a2, ev⟩ := pr
      obtain ⟨a, hst, hsw, hex, _, _, ha2, _⟩ := record_ok_elim h
      subst hst
      subst ha2
      simp only [applyOp, h]
      cases hs : a.status with
      | Active => simp [statusRank, hs]
      | PaymentReceived => simp [statusRank, hs]
      | Swept => exact absurd hs hsw
      | Expired => exact absurd hs hex
  | sweepOp cur dest auth ts =>
    cases h : sweep cur dest auth ts st with
    | error e => simp [applyOp, h]
    | ok pr =>
      obtain ⟨a2, trs⟩ := pr
      obtain ⟨a, hst, hpr, _, ha2, _⟩ := sweep_ok_elim h
      subst hst
      subst ha2
      simp only [applyOp, h]
      simp [statusRank, hpr]
  | expireOp cur =>
    cases h : expire cur st with
    | error e => simp [applyOp, h]
    | ok a2 =>
      obtain ⟨a, hst, hsw, hex, _, ha2⟩ := expire_ok_elim h
      subst hst
      subst ha2
      simp only [applyOp, h]
      cases hs : a.status with
      | Active => simp [statusRank, hs]
      | PaymentReceived => simp [statusRank, hs]
      | Swept => exact absurd hs hsw
      | Expired => exact absurd hs hex

/-- Once an account is terminal (`Swept` or `Expired`), no operation
changes its state. -/
theorem terminal_frozen (op : Op) (st : Option Account)
    (hterm : isTerminal st = true) : applyOp op st = st := by
  cases st with
  | none => simp [isTerminal] at hterm
  | some a =>
    have hts : a.status = .Swept ∨ a.status = .Expired := by
      simpa [isTerminal] using hterm
    cases op with
    | init c e r => simp [applyOp, initAccount]
    | record amt asset =>
      have hrec : record_payment amt asset (some a) = .error .AccountNotReady := by
        simp only [record_payment]
        rw [if_pos hts]
      simp [applyOp, hrec]
    | sweepOp cur dest auth ts =>
      rcases hts with hsw | hex
      · simp [applyOp, sweep, hsw]
      · simp [applyOp, sweep, hex]
    | expireOp cur =>
      rcases hts with hsw | hex
      · simp [applyOp, expire, hsw]
      · simp [applyOp, expire, hex]

/-! ### Concrete fixtures -/

/-- A freshly initialized account: creator 1, recovery 2, expiry ledger
sequence 1000. -/
def freshAcct : Account :=
  { creator := 1, recovery := 2, expiry_ledger := 1000,
    status := .Active, payments := [] }

/-- The fresh account after recording a payment of 100 of asset 3. -/
def paidAcct : Account :=
  { creator := 1, recovery := 2, expiry_ledger := 1000,
    status := .PaymentReceived, payments := [{ asset := 3, amount := 100 }] }

/-- The paid account after a successful sweep. -/
def sweptAcct : Account := { paidAcct with status := .Swept }

/-- An account holding the full complement of 10 distinct-asset records. -/
def fullAcct : Account :=
  { creator := 1, recovery := 2, expiry_ledger := 1000,
    status := .PaymentReceived,
    payments := (List.range 10).map (fun i => { asset := i, amount := 100 }) }

/-! ### Claim theorems -/

/-- C1: the claim states that a sweep whose 64-byte authorization token was
not produced by a valid signer (e.g. all zero) fails with
`AuthorizationFailed`, attempts no transfer and leaves the status unchanged.
The code does the opposite, as `test_sweep_single_asset` asserts: on an
account in `PaymentReceived` and before expiry, a sweep carrying the all-zero
token succeeds, requests the transfer and commits `status = Swept`. -/
theorem sweep_accepts_zero_token :
    run [Op.init 1 1000 2, Op.record 100 3] none = some paidAcct ∧
    sweep 10 4 zeroToken tsAllOk (some paidAcct) =
      .ok (sweptAcct, [(3, 4, (100 : Int))]) ∧
    applyOp (.sweepOp 10 4 zeroToken tsAllOk) (some paidAcct) =
      some sweptAcct := by
  refine ⟨rfl, rfl, rfl⟩

/-- C2: `sweep` either succeeds — committing `status = Swept` after
requesting one transfer per recorded `(asset, amount)` pair to the
destination, with the ledger records, order and count intact — or fails
leaving the committed state exactly as it was. -/
theorem sweep_atomic (cur dest : Nat) (auth : List Nat) (ts : TransferSvc)
    (st : Option Account) :
    (∀ a2 trs, sweep cur dest auth ts st = .ok (a2, trs) →
      a2.status = .Swept ∧
      trs = (paymentsOf st).map (fun p => (p.asset, dest, p.amount)) ∧
      a2.payments = paymentsOf st ∧
      applyOp (.sweepOp cur dest auth ts) st = some a2) ∧
    (∀ e, sweep cur dest auth ts st = .error e →
      applyOp (.sweepOp cur dest auth ts) st = st) := by
  constructor
  · intro a2 trs h
    obtain ⟨a, hst, _, _, ha2, htrs⟩ := sweep_ok_elim h
    subst hst
    subst ha2
    exact ⟨rfl, by simpa [paymentsOf] using htrs, by simp [paymentsOf],
      by simp [applyOp, h]⟩
  · intro e h
    simp [applyOp, h]

/-- Witness for C2: a concrete successful sweep of the paid account. -/
theorem sweep_atomic_witness :
    sweptAcct.status = .Swept ∧
    [(3, 4, (100 : Int))] =
      (paymentsOf (some paidAcct)).map (fun p => (p.asset, 4, p.amount)) ∧
    sweptAcct.payments = paymentsOf (some paidAcct) ∧
    applyOp (.sweepOp 10 4 zeroToken tsAllOk) (some paidAcct) =
      some sweptAcct :=
  (sweep_atomic 10 4 zeroToken tsAllOk (some paidAcct)).1 sweptAcct
    [(3, 4, (100 : Int))] (by rfl)

/-- C3: the first initialization succeeds, setting creator, recovery, expiry
ledger, status `Active` and an empty ledger; any later initialization fails
with `AlreadyInitialized` whatever its arguments and leaves the stored
fields unchanged. -/
theorem init_single (c e r c2 e2 r2 : Nat) (a : Account) :
    initAccount c e r none =
      .ok { creator := c, recovery := r, expiry_ledger := e,
            status := .Active, payments := [] } ∧
    applyOp (.init c e r) none =
      some { creator := c, recovery := r, expiry_ledger := e,
             status := .Active, payments := [] } ∧
    initAccount c2 e2 r2 (some a) = .error .AlreadyInitialized ∧
    applyOp (.init c2 e2 r2) (some a) = some a := by
  exact ⟨rfl, rfl, rfl, by simp [applyOp, initAccount]⟩

/-- C7: `is_expired` answers `false` for every current ledger sequence at or
below the stored expiry threshold, `true` for every current sequence
strictly above it, and fails on an account that was never initialized. -/
theorem is_expired_correct (current : Nat) (a : Account) :
    (current ≤ a.expiry_ledger → is_expired current (some a) = .ok false) ∧
    (a.expiry_ledger < current → is_expired current (some a) = .ok true) ∧
    is_expired current none = .error .AccountNotReady := by
  refine ⟨?_, ?_, rfl⟩
  · intro h
    simp only [is_expired, Except.ok.injEq, decide_eq_false_iff_not]
    omega
  · intro h
    simp only [is_expired, Except.ok.injEq, decide_eq_true_eq]
    omega

/-- Witness for C7: the paid account with expiry threshold 1000 is not
expired at sequence 1000 and is expired at sequence 1001. -/
theorem is_expired_correct_witness :
    is_expired 1000 (some paidAcct) = .ok false ∧
    is_expired 1001 (some paidAcct) = .ok true :=
  ⟨(is_expired_correct 1000 paidAcct).1 (by decide),
   (is_expired_correct 1001 paidAcct).2.1 (by decide)⟩

/-- C10: on an account meeting sweep's non-authorization preconditions
(initialized, `PaymentReceived`, not past expiry), the result of `sweep` is
the same for any two 64-byte token values, and the all-zero token is never
rejected with `AuthorizationFailed`. -/
theorem sweep_token_independent (current dest : Nat) (ts : TransferSvc)
    (a : Account) (tok1 tok2 : List Nat)
    (hpr : a.status = .PaymentReceived) (hexp : current ≤ a.expiry_ledger) :
    sweep current dest tok1 ts (some a) = sweep current dest tok2 ts (some a) ∧
    sweep current dest zeroToken ts (some a) ≠ .error .AuthorizationFailed := by
  refine ⟨rfl, ?_⟩
  have hnlt : ¬ a.expiry_ledger < current := by omega
  simp only [sweep, hpr, hnlt, if_false, if_true, reduceCtorEq]
  cases ht : doTransfers ts dest a.payments with
  | error e =>
    have hna := doTransfers_no_authfail ts dest a.payments
    rw [ht] at hna
    simpa using hna
  | ok trs => simp

/-- Witness for C10: on the paid account, the all-zero token and an all-one
token give the same sweep result, and the all-zero token is not rejected. -/
theorem sweep_token_independent_witness :
    sweep 10 4 zeroToken tsAllOk (some paidAcct) =
      sweep 10 4 (List.replicate 64 1) tsAllOk (some paidAcct) ∧
    sweep 10 4 zeroToken tsAllOk (some paidAcct) ≠
      .error .AuthorizationFailed :=
  sweep_token_independent 10 4 tsAllOk paidAcct zeroToken
    (List.replicate 64 1) (by decide) (by decide)

/-- C4: across every sequence of operations the stored payment count never
exceeds 10, and a `record_payment` of an 11th distinct asset on an account
already holding 10 records fails with `TooManyPayments`, leaving the count
at 10. -/
theorem ledger_bounded (ops : List Op) (amount : Int) (asset : Nat)
    (a : Account) (hlen : a.payments.length = maxPayments)
    (hfresh : ∀ p ∈ a.payments, p.asset ≠ asset)
    (hnt : a.status = .Active ∨ a.status = .PaymentReceived) :
    paymentCount (run ops none) ≤ 10 ∧
    record_payment amount asset (some a) = .error .TooManyPayments ∧
    paymentCount (applyOp (.record amount asset) (some a)) = 10 := by
  have hterm : ¬(a.status = .Swept ∨ a.status = .Expired) := by
    rcases hnt with h | h <;> simp [h]
  have hins := ledgerInsert_full (l := a.payments) amount hfresh (by omega)
  have hrec : record_payment amount asset (some a) = .error .TooManyPayments := by
    simp [record_payment, hterm, hins]
  refine ⟨?_, hrec, ?_⟩
  · have hInv := inv_reachable ops
    cases hr : run ops none with
    | none => simp [paymentCount]
    | some b =>
      rw [hr] at hInv
      obtain ⟨h1, _, _, _⟩ := hInv
      simpa [paymentCount, maxPayments] using h1
  · have h10 : a.payments.length = 10 := by simpa [maxPayments] using hlen
    simp [applyOp, hrec, paymentCount, h10]

/-- Witness for C4: the full 10-record account rejects an 11th distinct
asset with `TooManyPayments`. -/
theorem ledger_bounded_witness :
    paymentCount (run [] none) ≤ 10 ∧
    record_payment 7 99 (some fullAcct) = .error .TooManyPayments ∧
    paymentCount (applyOp (.record 7 99) (some fullAcct)) = 10 :=
  ledger_bounded [] 7 99 fullAcct (by decide) (by decide) (by decide)

/-- C5: on an initialized non-terminal account, recording an asset that is
already on the ledger fails with `DuplicateAsset` whatever the amount and
leaves the committed account (ledger and status) unchanged; and across every
sequence of operations no two stored records share an asset. -/
theorem ledger_dedup (ops : List Op) (amount : Int) (asset : Nat)
    (a : Account) (hdup : ∃ p ∈ a.payments, p.asset = asset)
    (hnt : a.status = .Active ∨ a.status = .PaymentReceived) :
    record_payment amount asset (some a) = .error .DuplicateAsset ∧
    applyOp (.record amount asset) (some a) = some a ∧
    assetsNodup (run ops none) := by
  have hterm : ¬(a.status = .Swept ∨ a.status = .Expired) := by
    rcases hnt with h | h <;> simp [h]
  have hins := ledgerInsert_dup (l := a.payments) amount hdup
  have hrec : record_payment amount asset (some a) = .error .DuplicateAsset := by
    simp [record_payment, hterm, hins]
  refine ⟨hrec, by simp [applyOp, hrec], ?_⟩
  have hInv := inv_reachable ops
  cases hr : run ops none with
  | none => simp [assetsNodup, paymentsOf]
  | some b =>
    rw [hr] at hInv
    obtain ⟨_, h2, _, _⟩ := hInv
    simpa [assetsNodup, paymentsOf] using h2

/-- Witness for C5: the paid account rejects a second record of asset 3 at a
different amount. -/
theorem ledger_dedup_witness :
    record_payment 55 3 (some paidAcct) = .error .DuplicateAsset ∧
    applyOp (.record 55 3) (some paidAcct) = some paidAcct ∧
    assetsNodup (run [] none) :=
  ledger_dedup [] 55 3 paidAcct
    ⟨{ asset := 3, amount := 100 }, by decide, by decide⟩ (by decide)

/-- C6: the status rank never decreases under any operation; once the
account is terminal (`Swept` or `Expired`) no operation changes its state;
and sweeping an already swept account fails with `AccountAlreadySwept`. -/
theorem status_monotone (op : Op) (st : Option Account) (a : Account)
    (hsw : a.status = .Swept) :
    statusRank st ≤ statusRank (applyOp op st) ∧
    (isTerminal st = true → applyOp op st = st) ∧
    (∀ cur dest auth ts,
      sweep cur dest auth ts (some a) = .error .AccountAlreadySwept) := by
  refine ⟨statusRank_le_applyOp op st, terminal_frozen op st, ?_⟩
  intro cur dest auth ts
  simp [sweep, hsw]

/-- Witness for C6: the swept account is frozen under `expire` and a second
sweep fails with `AccountAlreadySwept`. -/
theorem status_monotone_witness :
    statusRank (some sweptAcct) ≤
      statusRank (applyOp (.expireOp 2000) (some sweptAcct)) ∧
    applyOp (.expireOp 2000) (some sweptAcct) = some sweptAcct ∧
    sweep 10 4 zeroToken tsAllOk (some sweptAcct) =
      .error .AccountAlreadySwept := by
  obtain ⟨h1, h2, h3⟩ :=
    status_monotone (.expireOp 2000) (some sweptAcct) sweptAcct (by decide)
  exact ⟨h1, h2 (by decide), h3 10 4 zeroToken tsAllOk⟩

/-- C8: `expire` succeeds exactly on an initialized, non-terminal account
whose expiry threshold is strictly passed, and then only sets
`status = Expired`; called before the threshold it fails and the committed
state is unchanged; called on a terminal account it fails and the committed
state is unchanged; called on a never-initialized account it fails. -/
theorem expire_correct (current : Nat) (a : Account) :
    ((a.status = .Active ∨ a.status = .PaymentReceived) →
      a.expiry_ledger < current →
      expire current (some a) = .ok { a with status := .Expired }) ∧
    (∀ a2, expire current (some a) = .ok a2 →
      (a.status = .Active ∨ a.status = .PaymentReceived) ∧
      a.expiry_ledger < current ∧ a2 = { a with status := .Expired }) ∧
    (current ≤ a.expiry_ledger →
      (∃ e, expire current (some a) = .error e) ∧
      applyOp (.expireOp current) (some a) = some a) ∧
    ((a.status = .Swept ∨ a.status = .Expired) →
      (∃ e, expire current (some a) = .error e) ∧
      applyOp (.expireOp current) (some a) = some a) ∧
    expire current none = .error .AccountNotReady := by
  refine ⟨?_, ?_, ?_, ?_, rfl⟩
  · intro hnt hlt
    rcases hnt with h | h <;> simp [expire, h, hlt]
  · intro a2 h
    obtain ⟨a', heq, hsw, hex, hlt, ha2⟩ := expire_ok_elim h
    obtain rfl : a = a' := by injection heq
    refine ⟨?_, hlt, ha2⟩
    cases hs : a.status with
    | Active => exact Or.inl rfl
    | PaymentReceived => exact Or.inr rfl
    | Swept => exact absurd hs hsw
    | Expired => exact absurd hs hex
  · intro hle
    have hnlt : ¬ a.expiry_ledger < current := by omega
    cases hs : a.status with
    | Active =>
      have h : expire current (some a) = .error .AccountNotReady := by
        simp [expire, hs, hnlt]
      exact ⟨⟨_, h⟩, by simp [applyOp, h]⟩
    | PaymentReceived =>
      have h : expire current (some a) = .error .AccountNotReady := by
        simp [expire, hs, hnlt]
      exact ⟨⟨_, h⟩, by simp [applyOp, h]⟩
    | Swept =>
      have h : expire current (some a) = .error .AccountAlreadySwept := by
        simp [expire, hs]
      exact ⟨⟨_, h⟩, by simp [applyOp, h]⟩
    | Expired =>
      have h : expire current (some a) = .error .AccountExpired := by
        simp [expire, hs]
      exact ⟨⟨_, h⟩, by simp [applyOp, h]⟩
  · intro hts
    rcases hts with h | h
    · have he : expire current (some a) = .error .AccountAlreadySwept := by
        simp [expire, h]
      exact ⟨⟨_, he⟩, by simp [applyOp, he]⟩
    · have he : expire current (some a) = .error .AccountExpired := by
        simp [expire, h]
      exact ⟨⟨_, he⟩, by simp [applyOp, he]⟩

/-- Witness for C8: the paid account expires at sequence 1001 and refuses to
expire at sequence 500. -/
theorem expire_correct_witness :
    expire 1001 (some paidAcct) = .ok { paidAcct with status := .Expired } ∧
    (∃ e, expire 500 (some paidAcct) = .error e) ∧
    applyOp (.expireOp 500) (some paidAcct) = some paidAcct := by
  refine ⟨(expire_correct 1001 paidAcct).1 (by decide) (by decide), ?_, ?_⟩
  · exact ((expire_correct 500 paidAcct).2.2.1 (by decide)).1
  · exact ((expire_correct 500 paidAcct).2.2.1 (by decide)).2

/-- C9: on any reachable account, a successful `record_payment` whose ledger
was empty starts from `Active`, ends in `PaymentReceived` and emits the
first-payment event; one whose ledger was nonempty starts from
`PaymentReceived`, stays there and emits the multi-payment event; the two
events are distinct. -/
theorem payment_events (ops : List Op) (amount : Int) (asset : Nat)
    (a a2 : Account) (ev : Event)
    (hrun : run ops none = some a)
    (hok : record_payment amount asset (some a) = .ok (a2, ev)) :
    (a.payments = [] →
      a.status = .Active ∧ a2.status = .PaymentReceived ∧
      ev = .firstPayment asset amount) ∧
    (a.payments ≠ [] →
      a.status = .PaymentReceived ∧ a2.status = .PaymentReceived ∧
      ev = .multiPayment asset amount) ∧
    (∀ x y, Event.firstPayment x y ≠ Event.multiPayment x y) := by
  have hInv := inv_reachable ops
  rw [hrun] at hInv
  obtain ⟨_, _, hact, hpr⟩ := hInv
  obtain ⟨a', heq, hsw, hex, _, _, ha2, hev⟩ := record_ok_elim hok
  obtain rfl : a = a' := by injection heq
  refine ⟨?_, ?_, by intro x y; simp⟩
  · intro hemp
    have hs : a.status = .Active := by
      cases hs : a.status with
      | Active => rfl
      | PaymentReceived => exact absurd hemp (hpr hs)
      | Swept => exact absurd hs hsw
      | Expired => exact absurd hs hex
    subst ha2
    refine ⟨hs, rfl, ?_⟩
    rw [hev]
    simp [hemp]
  · intro hne
    have hs : a.status = .PaymentReceived := by
      cases hs : a.status with
      | Active => exact absurd (hact hs) hne
      | PaymentReceived => rfl
      | Swept => exact absurd hs hsw
      | Expired => exact absurd hs hex
    subst ha2
    refine ⟨hs, rfl, ?_⟩
    rw [hev]
    simp [hne]

/-- Witness for C9: recording asset 3 on the freshly initialized account
emits the first-payment event and moves the status to `PaymentReceived`. -/
theorem payment_events_witness :
    freshAcct.status = .Active ∧ paidAcct.status = .PaymentReceived ∧
    (Event.firstPayment 3 (100 : Int)) = .firstPayment 3 100 :=
  (payment_events [Op.init 1 1000 2] 100 3 freshAcct paidAcct
    (.firstPayment 3 100) (by rfl) (by rfl)).1 (by decide)

end Bridgelet
